import Mathlib

/-!
Host info queries of `neo/sys/win32/win_shared.cpp`.

A shallow embedding of the query functions of `win_shared.cpp`.  The operating
system calls are inputs: every function takes the values the OS call hands
back.  `int` and `unsigned int` are 32 bits wide, `unsigned __int64` and
`DWORDLONG` are 64 bits wide; a value is kept as a `Nat` bit pattern or as the
`Int` it denotes, with the reductions modulo `2^32` and `2^64` written out.
-/

namespace WinShared

/-! ## 32-bit machine integers -/

/-- The signed `int` denoted by the low 32 bits of a bit pattern. -/
def toInt32 (u : Nat) : Int :=
  if u % 2 ^ 32 < 2 ^ 31 then ((u % 2 ^ 32 : Nat) : Int)
  else ((u % 2 ^ 32 : Nat) : Int) - 2 ^ 32

/-- The 32-bit two's-complement bit pattern of an integer. -/
def toUInt32 (i : Int) : Nat := (i % 2 ^ 32).toNat

/-- The low 64 bits of a value: an `unsigned __int64`. -/
def toUInt64 (n : Nat) : Nat := n % 2 ^ 64

/-- Addition of two `int`s, wrapping modulo `2^32`. -/
def add32 (a b : Int) : Int := toInt32 (toUInt32 (a + b))

/-- Bitwise complement `~a` of an `int`. -/
def not32 (a : Int) : Int := toInt32 (2 ^ 32 - 1 - toUInt32 a)

/-- Bitwise conjunction `a & b` of two `int`s. -/
def and32 (a b : Int) : Int := toInt32 (toUInt32 a &&& toUInt32 b)

/-! ## The OS memory status -/

/-- The fields of the Win32 `MEMORYSTATUSEX` that `GlobalMemoryStatusEx`
fills in: a `DWORD` and seven `DWORDLONG` byte counts. -/
structure MEMORYSTATUSEX where
  dwMemoryLoad : Nat
  ullTotalPhys : Nat
  ullAvailPhys : Nat
  ullTotalPageFile : Nat
  ullAvailPageFile : Nat
  ullTotalVirtual : Nat
  ullAvailVirtual : Nat
  ullAvailExtendedVirtual : Nat
  deriving Repr, DecidableEq

/-- The statistics record `sysMemoryStats_t`: eight `int` fields. -/
structure sysMemoryStats_t where
  memoryLoad : Int
  totalPhysical : Int
  availPhysical : Int
  totalPageFile : Int
  availPageFile : Int
  totalVirtual : Int
  availVirtual : Int
  availExtendedVirtual : Int
  deriving Repr, DecidableEq

/-! ## Sys_GetSystemRam -/

/-- The function `Sys_GetSystemRam`: the amount of physical memory in MB.
`int physRam = statex.ullTotalPhys / ( 1024 * 1024 );`
`physRam = ( physRam + 8 ) & ~15;` -/
def Sys_GetSystemRam (statex : MEMORYSTATUSEX) : Int :=
  let physRam : Int := toInt32 (toUInt64 statex.ullTotalPhys / (1024 * 1024))
  let physRam : Int := and32 (add32 physRam 8) (not32 15)
  physRam

/-! ## Sys_GetCurrentMemoryStatus -/

/-- The read `*(int*)&work` of an `unsigned __int64 work` on little-endian
Win32: the low 32 bits of `work` taken as an `int`. -/
def lowInt (work : Nat) : Int := toInt32 (toUInt64 work)

/-- The function `Sys_GetCurrentMemoryStatus`: the record written to `stats`, from the
status that `GlobalMemoryStatusEx` reports.  Every size field is
`work = statex.<field> >> 20; stats.<field> = *(int*)&work;`. -/
def Sys_GetCurrentMemoryStatus (statex : MEMORYSTATUSEX) : sysMemoryStats_t :=
  { memoryLoad := toInt32 statex.dwMemoryLoad
    totalPhysical := lowInt (toUInt64 statex.ullTotalPhys >>> 20)
    availPhysical := lowInt (toUInt64 statex.ullAvailPhys >>> 20)
    availPageFile := lowInt (toUInt64 statex.ullAvailPageFile >>> 20)
    totalPageFile := lowInt (toUInt64 statex.ullTotalPageFile >>> 20)
    totalVirtual := lowInt (toUInt64 statex.ullTotalVirtual >>> 20)
    availVirtual := lowInt (toUInt64 statex.ullAvailVirtual >>> 20)
    availExtendedVirtual := lowInt (toUInt64 statex.ullAvailExtendedVirtual >>> 20) }

/-! ## Sys_GetDriveFreeSpace -/

/-- What `GetDiskFreeSpaceEx` hands back: its `BOOL` result and the contents
of the three output variables after the call. -/
structure DiskFreeSpace where
  ok : Bool
  lpFreeBytesAvailable : Nat
  lpTotalNumberOfBytes : Nat
  lpTotalNumberOfFreeBytes : Nat
  deriving Repr, DecidableEq

/-- The conversion `( double )x` of an unsigned 64-bit integer: below `2^53`
the value is kept, above it is rounded to 53 significant bits, to nearest with
ties to the even significand. -/
def toDouble (n : Nat) : ℚ :=
  if n < 2 ^ 53 then (n : ℚ)
  else
    let e := Nat.log2 n - 52
    let q := n / 2 ^ e
    let r := n % 2 ^ e
    let half := 2 ^ (e - 1)
    if r < half then ((q * 2 ^ e : Nat) : ℚ)
    else if half < r then (((q + 1) * 2 ^ e : Nat) : ℚ)
    else if q % 2 = 0 then ((q * 2 ^ e : Nat) : ℚ)
    else (((q + 1) * 2 ^ e : Nat) : ℚ)

/-- The conversion of a `double` to `int`: the value truncated toward zero;
`none` when the truncated value is outside the range of `int`, where the
conversion is undefined. -/
def doubleToInt (x : ℚ) : Option Int :=
  let z : Int := if 0 ≤ x then ⌊x⌋ else ⌈x⌉
  if -(2 ^ 31) ≤ z ∧ z < 2 ^ 31 then some z else none

/-- The function `Sys_GetDriveFreeSpace`: the free space of the volume of `path` in
megabytes, `26` when the query fails.  The quotient of a `double` by
`1024.0 * 1024.0 = 2^20` is a change of exponent and so is exact. -/
def Sys_GetDriveFreeSpace (GetDiskFreeSpaceEx : String → DiskFreeSpace)
    (path : String) : Option Int :=
  let out := GetDiskFreeSpaceEx path
  let ret : Option Int := some 26
  let ret : Option Int :=
    if out.ok then
      doubleToInt (toDouble (toUInt64 out.lpFreeBytesAvailable) / (1024 * 1024))
    else ret
  ret

/-! ## Sys_GetVideoRam -/

/-- The three ways the file is built: with `ID_DEDICATED`; without it and
without `_MFC_VER`; with `_MFC_VER`, where the WMI query is compiled in. -/
inductive BuildVariant where
  | dedicated
  | basicDefault
  | fullQuery
  deriving Repr, DecidableEq

/-- The Windows result code `S_OK`. -/
def S_OK : Int := 0

/-- The WMI result code `WBEM_S_NO_ERROR`. -/
def WBEM_S_NO_ERROR : Int := 0

/-- The results of the COM and WMI calls of the full query, in the order of
the calls: each `HRESULT`, whether each returned interface pointer is
non-null, and the `intVal` of the `AdapterRAM` variant. -/
structure WmiOutcome where
  hrCreateInstance : Int
  spLoc : Bool
  hrConnectServer : Int
  hrSetProxyBlanket : Int
  hrCreateInstanceEnum : Int
  spEnumInst : Bool
  hrNext : Int
  spInstance : Bool
  hrGet : Int
  intVal : Int
  deriving Repr, DecidableEq

/-- The `#else` branch of `Sys_GetVideoRam`: the value of the
`unsigned int retSize` that is returned. -/
def queryVideoRam (o : WmiOutcome) : Nat :=
  let retSize : Nat := 64
  if o.hrCreateInstance ≠ S_OK ∨ o.spLoc = false then retSize
  else if o.hrConnectServer ≠ WBEM_S_NO_ERROR then retSize
  else if o.hrSetProxyBlanket ≠ S_OK then retSize
  else if o.hrCreateInstanceEnum ≠ WBEM_S_NO_ERROR ∨ o.spEnumInst = false then retSize
  else if o.hrNext = S_OK ∧ o.spInstance = true then
    if o.hrGet = S_OK then
      let retSize : Nat := toUInt32 (Int.tdiv o.intVal (1024 * 1024))
      if retSize = 0 then 64 else retSize
    else retSize
  else retSize

/-- The function `Sys_GetVideoRam`: the video memory in megabytes; `retSize` is converted
to the `int` the function returns. -/
def Sys_GetVideoRam (build : BuildVariant) (o : WmiOutcome) : Int :=
  match build with
  | .dedicated => 0
  | .basicDefault => 64
  | .fullQuery => toInt32 (queryVideoRam o)

/-- The `intVal` member of the variant that `Get` fills in for the `uint32`
property `AdapterRAM`: the 32 bits of the reported byte count, read as an
`int`. -/
def variantIntVal (adapterRAM : Nat) : Int := toInt32 adapterRAM

/-- The outcome in which every call of the full query returns `S_OK` (or
`WBEM_S_NO_ERROR`) with a non-null interface, and the adapter reports
`adapterRAM` bytes. -/
def allStepsSucceed (adapterRAM : Nat) : WmiOutcome :=
  { hrCreateInstance := S_OK
    spLoc := true
    hrConnectServer := WBEM_S_NO_ERROR
    hrSetProxyBlanket := S_OK
    hrCreateInstanceEnum := WBEM_S_NO_ERROR
    spEnumInst := true
    hrNext := S_OK
    spInstance := true
    hrGet := S_OK
    intVal := variantIntVal adapterRAM }

/-! ## Sys_GetCurrentUser -/

/-- The terminator of a C string. -/
def NUL : Char := Char.ofNat 0

/-- The C string that starts a buffer: the characters before the first
terminator. -/
def cstr (buf : List Char) : List Char := buf.takeWhile (fun c => c != NUL)

/-- The C library `strcpy( dst, src )`: the string of `src` and a terminator
over the start of `dst`. -/
def strcpy (dst src : List Char) : List Char :=
  cstr src ++ NUL :: dst.drop ((cstr src).length + 1)

/-- The function `Sys_GetCurrentUser`: the contents of the static buffer `s_userName` that
the returned pointer refers to.  `GetUserName` maps the buffer before the call
to the `BOOL` result and the buffer after the call. -/
def Sys_GetCurrentUser (GetUserName : List Char → Bool × List Char)
    (s_userName : List Char) : List Char :=
  let r := GetUserName s_userName
  let s_userName := r.2
  let s_userName := if r.1 = false then strcpy s_userName "player".toList else s_userName
  let s_userName :=
    if s_userName.headD NUL = NUL then strcpy s_userName "player".toList else s_userName
  s_userName

/-! ## Machine-integer lemmas -/

theorem land_mask (u : Nat) : u &&& 0xFFFFFFF0 = 16 * ((u % 2 ^ 32) / 16) := by
  have hm : (0xFFFFFFF0 : Nat) = 2 ^ 4 * (2 ^ 28 - 1) := by norm_num
  have h16 : (16 : Nat) = 2 ^ 4 := by norm_num
  rw [hm, h16, ← Nat.shiftRight_eq_div_pow]
  apply Nat.eq_of_testBit_eq
  intro i
  rw [Nat.testBit_land, Nat.testBit_mul_pow_two, Nat.testBit_mul_pow_two,
    Nat.testBit_shiftRight, Nat.testBit_mod_two_pow, Nat.testBit_two_pow_sub_one]
  by_cases h4 : 4 ≤ i
  · have e : 4 + (i - 4) = i := by omega
    by_cases h32 : i < 32
    · have : i - 4 < 28 := by omega
      simp [h4, h32, this, e]
    · have : ¬ (i - 4 < 28) := by omega
      simp [h4, h32, this, e]
  · simp [h4]

theorem toUInt32_lt (i : Int) : toUInt32 i < 2 ^ 32 := by
  unfold toUInt32; omega

theorem toUInt32_toInt32 (u : Nat) : toUInt32 (toInt32 u) = u % 2 ^ 32 := by
  unfold toUInt32 toInt32; split <;> omega

theorem toInt32_of_lt {u : Nat} (h : u < 2 ^ 31) : toInt32 u = (u : Int) := by
  unfold toInt32; split <;> omega

theorem toUInt32_add32 (a b : Int) : toUInt32 (add32 a b) = toUInt32 (a + b) := by
  rw [add32, toUInt32_toInt32]; unfold toUInt32; omega

theorem toUInt32_not32_15 : toUInt32 (not32 15) = 0xFFFFFFF0 := by
  rw [not32, toUInt32_toInt32]; unfold toUInt32; omega

theorem and32_not32_15 (a : Int) :
    and32 a (not32 15) = toInt32 (16 * (toUInt32 a / 16)) := by
  rw [and32, toUInt32_not32_15, land_mask, Nat.mod_eq_of_lt (toUInt32_lt a)]

theorem Sys_GetSystemRam_eq (statex : MEMORYSTATUSEX) :
    Sys_GetSystemRam statex =
      toInt32 (16 * (toUInt32 (toInt32 (toUInt64 statex.ullTotalPhys / 2 ^ 20) + 8) / 16)) := by
  simp only [Sys_GetSystemRam]
  rw [and32_not32_15, toUInt32_add32]
  norm_num

/-! ## Sys_GetSystemRam and Sys_GetCurrentMemoryStatus -/

theorem lowInt_shift_eq {t : Nat} (h : toUInt64 t / 2 ^ 20 < 2 ^ 31) :
    lowInt (toUInt64 t >>> 20) = ((toUInt64 t / 2 ^ 20 : Nat) : Int) := by
  rw [Nat.shiftRight_eq_div_pow]
  unfold lowInt
  have h1 : toUInt64 (toUInt64 t / 2 ^ 20) = toUInt64 t / 2 ^ 20 := by
    unfold toUInt64 at *; omega
  rw [h1, toInt32_of_lt h]

theorem Sys_GetSystemRam_of_le {statex : MEMORYSTATUSEX}
    (h : toUInt64 statex.ullTotalPhys / 2 ^ 20 ≤ 2 ^ 31 - 9) :
    Sys_GetSystemRam statex =
      ((16 * ((toUInt64 statex.ullTotalPhys / 2 ^ 20 + 8) / 16) : Nat) : Int) := by
  rw [Sys_GetSystemRam_eq]
  generalize toUInt64 statex.ullTotalPhys / 2 ^ 20 = m at h
  have hm : m < 2 ^ 31 := by omega
  rw [toInt32_of_lt hm]
  have h2 : toUInt32 ((m : Int) + 8) = m + 8 := by unfold toUInt32; omega
  rw [h2]
  apply toInt32_of_lt
  omega

/-- C3: whatever 64-bit total the OS reports, the result of `Sys_GetSystemRam`
(with the truncation to `int` and the addition of 8 wrapping modulo `2^32`) is
a multiple of 16. -/
theorem C3_Sys_GetSystemRam_multiple_of_16 (statex : MEMORYSTATUSEX) :
    (16 : Int) ∣ Sys_GetSystemRam statex := by
  rw [Sys_GetSystemRam_eq]
  generalize toUInt32 (toInt32 (toUInt64 statex.ullTotalPhys / 2 ^ 20) + 8) / 16 = k
  unfold toInt32
  split <;> omega

/-- C10: when the megabyte count `m` of the reported total is at most
`2^31 - 9`, `Sys_GetSystemRam` returns `16 * ((m + 8) / 16)`, which lies
between `m - 7` and `m + 8`, and the `totalPhysical` that
`Sys_GetCurrentMemoryStatus` reports for the same status is `m`, so the two
agree to within 8. -/
theorem C10_Sys_GetSystemRam_nearest (statex : MEMORYSTATUSEX)
    (h : toUInt64 statex.ullTotalPhys / 2 ^ 20 ≤ 2 ^ 31 - 9) :
    Sys_GetSystemRam statex
        = 16 * ((((toUInt64 statex.ullTotalPhys / 2 ^ 20 : Nat) : Int) + 8) / 16)
      ∧ ((toUInt64 statex.ullTotalPhys / 2 ^ 20 : Nat) : Int) - 7 ≤ Sys_GetSystemRam statex
      ∧ Sys_GetSystemRam statex ≤ ((toUInt64 statex.ullTotalPhys / 2 ^ 20 : Nat) : Int) + 8
      ∧ (Sys_GetCurrentMemoryStatus statex).totalPhysical
          = ((toUInt64 statex.ullTotalPhys / 2 ^ 20 : Nat) : Int)
      ∧ (Sys_GetCurrentMemoryStatus statex).totalPhysical - 7 ≤ Sys_GetSystemRam statex
      ∧ Sys_GetSystemRam statex ≤ (Sys_GetCurrentMemoryStatus statex).totalPhysical + 8 := by
  have hr := Sys_GetSystemRam_of_le h
  have ht : (Sys_GetCurrentMemoryStatus statex).totalPhysical
      = ((toUInt64 statex.ullTotalPhys / 2 ^ 20 : Nat) : Int) :=
    lowInt_shift_eq (by omega)
  rw [ht, hr]
  generalize toUInt64 statex.ullTotalPhys / 2 ^ 20 = m at h
  omega

/-- Witness of C10: a machine reporting 1000 MB and 5 bytes. -/
theorem C10_Sys_GetSystemRam_nearest_witness :
    toUInt64 (1000 * 2 ^ 20 + 5) / 2 ^ 20 ≤ 2 ^ 31 - 9
      ∧ Sys_GetSystemRam ⟨50, 1000 * 2 ^ 20 + 5, 0, 0, 0, 0, 0, 0⟩ = 1008
      ∧ (Sys_GetCurrentMemoryStatus ⟨50, 1000 * 2 ^ 20 + 5, 0, 0, 0, 0, 0, 0⟩).totalPhysical
          = 1000 := by
  have h := C10_Sys_GetSystemRam_nearest ⟨50, 1000 * 2 ^ 20 + 5, 0, 0, 0, 0, 0, 0⟩
    (by decide)
  refine ⟨by decide, ?_, ?_⟩
  · rw [h.1]; decide
  · rw [h.2.2.2.1]; decide

/-- C2: the code does not round up.  A machine reporting 519 MB has megabyte
count 519; the smallest multiple of 16 at or above it is 528, and
`Sys_GetSystemRam` returns 512, which is below the count.  A machine reporting
exactly 1 MB gets 0. -/
theorem C2_Sys_GetSystemRam_not_rounded_up :
    toUInt64 (519 * 2 ^ 20) / 2 ^ 20 = 519
      ∧ toUInt64 (519 * 2 ^ 20) / 2 ^ 20 ≤ 2 ^ 31 - 16
      ∧ Sys_GetSystemRam ⟨0, 519 * 2 ^ 20, 0, 0, 0, 0, 0, 0⟩ = 512
      ∧ ¬ (((toUInt64 (519 * 2 ^ 20) / 2 ^ 20 : Nat) : Int)
            ≤ Sys_GetSystemRam ⟨0, 519 * 2 ^ 20, 0, 0, 0, 0, 0, 0⟩)
      ∧ toUInt64 (2 ^ 20) / 2 ^ 20 = 1
      ∧ Sys_GetSystemRam ⟨0, 2 ^ 20, 0, 0, 0, 0, 0, 0⟩ = 0
      ∧ ¬ (((toUInt64 (2 ^ 20) / 2 ^ 20 : Nat) : Int)
            ≤ Sys_GetSystemRam ⟨0, 2 ^ 20, 0, 0, 0, 0, 0, 0⟩) := by
  decide

theorem toInt32_nonneg_iff (u : Nat) : 0 ≤ toInt32 u ↔ u % 2 ^ 32 < 2 ^ 31 := by
  unfold toInt32; split <;> omega

theorem lowInt_nonneg_iff (w : Nat) : 0 ≤ lowInt w ↔ w % 2 ^ 32 < 2 ^ 31 := by
  unfold lowInt
  rw [toInt32_nonneg_iff]
  unfold toUInt64
  omega

/-- C1: the code reports megabytes where the claim (and the comment of the
function) says kilobytes.  For a status in which every byte count is
`2^20` (1 MB, that is 1024 kB) every size field of the record is 1, and
not `2^20 / 1024 = 1024`. -/
theorem C1_Sys_GetCurrentMemoryStatus_not_kilobytes :
    Sys_GetCurrentMemoryStatus ⟨0, 2 ^ 20, 2 ^ 20, 2 ^ 20, 2 ^ 20, 2 ^ 20, 2 ^ 20, 2 ^ 20⟩
        = ⟨0, 1, 1, 1, 1, 1, 1, 1⟩
      ∧ (2 ^ 20 / 1024 : Nat) = 1024
      ∧ (Sys_GetCurrentMemoryStatus
            ⟨0, 2 ^ 20, 2 ^ 20, 2 ^ 20, 2 ^ 20, 2 ^ 20, 2 ^ 20, 2 ^ 20⟩).totalPhysical
          ≠ ((2 ^ 20 / 1024 : Nat) : Int) := by
  decide

/-- C5 (as stated) fails: for a status whose total physical memory is `2^51`
bytes the shifted count is `2^31`, and the `totalPhysical` field is
`-2147483648`. -/
theorem C5_nonneg_counterexample :
    (Sys_GetCurrentMemoryStatus ⟨0, 2 ^ 51, 0, 0, 0, 0, 0, 0⟩).totalPhysical = -2147483648
      ∧ ¬ (0 ≤ (Sys_GetCurrentMemoryStatus ⟨0, 2 ^ 51, 0, 0, 0, 0, 0, 0⟩).totalPhysical) := by
  decide

/-- C5 (amended): every field of the record written by
`Sys_GetCurrentMemoryStatus` is non-negative exactly when the low 32 bits of
the load and of every shifted 64-bit count are below `2^31`. -/
theorem C5_Sys_GetCurrentMemoryStatus_nonneg_iff (statex : MEMORYSTATUSEX) :
    (0 ≤ (Sys_GetCurrentMemoryStatus statex).memoryLoad
      ∧ 0 ≤ (Sys_GetCurrentMemoryStatus statex).totalPhysical
      ∧ 0 ≤ (Sys_GetCurrentMemoryStatus statex).availPhysical
      ∧ 0 ≤ (Sys_GetCurrentMemoryStatus statex).totalPageFile
      ∧ 0 ≤ (Sys_GetCurrentMemoryStatus statex).availPageFile
      ∧ 0 ≤ (Sys_GetCurrentMemoryStatus statex).totalVirtual
      ∧ 0 ≤ (Sys_GetCurrentMemoryStatus statex).availVirtual
      ∧ 0 ≤ (Sys_GetCurrentMemoryStatus statex).availExtendedVirtual)
    ↔ (statex.dwMemoryLoad % 2 ^ 32 < 2 ^ 31
      ∧ (toUInt64 statex.ullTotalPhys >>> 20) % 2 ^ 32 < 2 ^ 31
      ∧ (toUInt64 statex.ullAvailPhys >>> 20) % 2 ^ 32 < 2 ^ 31
      ∧ (toUInt64 statex.ullTotalPageFile >>> 20) % 2 ^ 32 < 2 ^ 31
      ∧ (toUInt64 statex.ullAvailPageFile >>> 20) % 2 ^ 32 < 2 ^ 31
      ∧ (toUInt64 statex.ullTotalVirtual >>> 20) % 2 ^ 32 < 2 ^ 31
      ∧ (toUInt64 statex.ullAvailVirtual >>> 20) % 2 ^ 32 < 2 ^ 31
      ∧ (toUInt64 statex.ullAvailExtendedVirtual >>> 20) % 2 ^ 32 < 2 ^ 31) := by
  simp only [Sys_GetCurrentMemoryStatus, lowInt_nonneg_iff, toInt32_nonneg_iff]

/-! ## Sys_GetDriveFreeSpace: theorems -/

theorem toDouble_of_lt {n : Nat} (h : n < 2 ^ 53) : toDouble n = (n : ℚ) := by
  unfold toDouble
  rw [if_pos h]

theorem doubleToInt_div_of_lt {n : Nat} (h : n < 2 ^ 51) :
    doubleToInt ((n : ℚ) / (1024 * 1024)) = some ((n / 2 ^ 20 : Nat) : Int) := by
  have hq : (0 : ℚ) ≤ (n : ℚ) / (1024 * 1024) := by positivity
  have hfloor : ⌊(n : ℚ) / (1024 * 1024)⌋ = ((n / 2 ^ 20 : Nat) : Int) := by
    have h1 : ((1024 : ℚ) * 1024) = ((2 ^ 20 : Nat) : ℚ) := by norm_num
    rw [h1, Rat.floor_natCast_div_natCast]
    norm_cast
  unfold doubleToInt
  simp only [if_pos hq, hfloor]
  rw [if_pos]
  constructor <;> omega

/-- C7: when the OS free-space query fails for a path, `Sys_GetDriveFreeSpace`
returns 26, whatever the path and whatever the query left in the three output
variables. -/
theorem C7_Sys_GetDriveFreeSpace_fallback (GetDiskFreeSpaceEx : String → DiskFreeSpace)
    (path : String) (hfail : (GetDiskFreeSpaceEx path).ok = false) :
    Sys_GetDriveFreeSpace GetDiskFreeSpaceEx path = some 26 := by
  simp [Sys_GetDriveFreeSpace, hfail]

/-- Witness of C7: a failing query that leaves arbitrary values behind. -/
theorem C7_Sys_GetDriveFreeSpace_fallback_witness :
    (DiskFreeSpace.mk false 123456789 42 7).ok = false
      ∧ Sys_GetDriveFreeSpace (fun _ => ⟨false, 123456789, 42, 7⟩) "Q:/missing" = some 26 :=
  ⟨rfl, C7_Sys_GetDriveFreeSpace_fallback (fun _ => ⟨false, 123456789, 42, 7⟩) "Q:/missing" rfl⟩

/-- C9: when the OS free-space query succeeds and reports `f < 2^51` bytes
available to the caller, `Sys_GetDriveFreeSpace` returns `f / 2^20` (rounded
down); the total-bytes and total-free-bytes outputs play no part. -/
theorem C9_Sys_GetDriveFreeSpace_megabytes (GetDiskFreeSpaceEx : String → DiskFreeSpace)
    (path : String) (f total totalFree : Nat)
    (hout : GetDiskFreeSpaceEx path = ⟨true, f, total, totalFree⟩) (hf : f < 2 ^ 51) :
    Sys_GetDriveFreeSpace GetDiskFreeSpaceEx path = some ((f / 2 ^ 20 : Nat) : Int) := by
  have h64 : toUInt64 f = f := by unfold toUInt64; omega
  simp only [Sys_GetDriveFreeSpace, hout, h64, if_true]
  rw [toDouble_of_lt (by omega), doubleToInt_div_of_lt hf]

/-- Witness of C9: 5 MB and 7 bytes free for the caller gives 5. -/
theorem C9_Sys_GetDriveFreeSpace_megabytes_witness :
    5 * 2 ^ 20 + 7 < 2 ^ 51
      ∧ Sys_GetDriveFreeSpace (fun _ => ⟨true, 5 * 2 ^ 20 + 7, 1, 99 * 2 ^ 20⟩) "C:/base"
          = some (((5 * 2 ^ 20 + 7) / 2 ^ 20 : Nat) : Int) :=
  ⟨by decide, C9_Sys_GetDriveFreeSpace_megabytes (fun _ => ⟨true, 5 * 2 ^ 20 + 7, 1, 99 * 2 ^ 20⟩)
    "C:/base" (5 * 2 ^ 20 + 7) 1 (99 * 2 ^ 20) rfl (by decide)⟩

/-! ## Sys_GetVideoRam: theorems -/

theorem queryVideoRam_bounds (o : WmiOutcome) :
    0 < queryVideoRam o ∧ queryVideoRam o < 2 ^ 32 := by
  have hlt := toUInt32_lt (Int.tdiv o.intVal (1024 * 1024))
  unfold queryVideoRam
  simp only
  split_ifs <;> omega

theorem toInt32_ne_zero {u : Nat} (h0 : 0 < u) (h1 : u < 2 ^ 32) : toInt32 u ≠ 0 := by
  unfold toInt32; split <;> omega

/-- C4 (as stated) fails: the headless build returns 0. -/
theorem C4_never_zero_counterexample :
    Sys_GetVideoRam .dedicated ⟨0, true, 0, 0, 0, true, 0, true, 0, 268435456⟩ = 0 := by
  decide

/-- C4 (amended): for every outcome of the OS and COM calls, the result of
`Sys_GetVideoRam` is zero exactly in the headless `ID_DEDICATED` build; in the
basic-default and the full-query build it is never zero. -/
theorem C4_Sys_GetVideoRam_zero_iff (build : BuildVariant) (o : WmiOutcome) :
    Sys_GetVideoRam build o = 0 ↔ build = .dedicated := by
  cases build
  · simp [Sys_GetVideoRam]
  · simp [Sys_GetVideoRam]
  · have hb := queryVideoRam_bounds o
    have := toInt32_ne_zero hb.1 hb.2
    simp [Sys_GetVideoRam, this]

/-- C6: the code reads the reported `AdapterRAM` through the signed `intVal`.
With every step succeeding, an adapter reporting 2 GiB gives `-2048` and not
`2^31 / 2^20 = 2048`, one reporting 3 GiB gives `-1024` and not 3072, and one
reporting `0xFFFFFFFF` bytes gives the default 64 although its megabyte count
4095 is not zero.  An adapter reporting 256 MB gives 256. -/
theorem C6_Sys_GetVideoRam_large_adapter :
    Sys_GetVideoRam .fullQuery (allStepsSucceed (2 ^ 31)) = -2048
      ∧ (2 ^ 31 / 2 ^ 20 : Nat) = 2048
      ∧ Sys_GetVideoRam .fullQuery (allStepsSucceed (3 * 2 ^ 30)) = -1024
      ∧ (3 * 2 ^ 30 / 2 ^ 20 : Nat) = 3072
      ∧ Sys_GetVideoRam .fullQuery (allStepsSucceed 0xFFFFFFFF) = 64
      ∧ (0xFFFFFFFF / 2 ^ 20 : Nat) = 4095
      ∧ Sys_GetVideoRam .fullQuery (allStepsSucceed (256 * 2 ^ 20)) = 256 := by
  decide

/-! ## Sys_GetCurrentUser: theorems -/

theorem cstr_append_NUL (s rest : List Char) :
    cstr (cstr s ++ NUL :: rest) = cstr s := by
  induction s with
  | nil => simp [cstr]
  | cons c s ih =>
    by_cases hc : c = NUL
    · simp [cstr, hc]
    · simp only [cstr] at ih ⊢
      simp [List.takeWhile_cons, hc, ih]

theorem cstr_strcpy (dst src : List Char) : cstr (strcpy dst src) = cstr src := by
  unfold strcpy
  exact cstr_append_NUL src _

theorem cstr_player : cstr "player".toList = "player".toList := by decide

theorem headD_eq_NUL_iff (buf : List Char) : buf.headD NUL = NUL ↔ cstr buf = [] := by
  cases buf with
  | nil => simp [cstr]
  | cons c s =>
    by_cases hc : c = NUL
    · simp [cstr, hc]
    · simp [cstr, List.takeWhile_cons, hc]

/-- C8: whatever the OS user-name query does, the string `Sys_GetCurrentUser`
returns is `player` when the query fails or yields an empty string, and is the
OS-reported name otherwise; it is never empty. -/
theorem C8_Sys_GetCurrentUser_default (GetUserName : List Char → Bool × List Char)
    (s_userName : List Char) :
    cstr (Sys_GetCurrentUser GetUserName s_userName)
        = (if (GetUserName s_userName).1 = false ∨ cstr (GetUserName s_userName).2 = []
            then "player".toList else cstr (GetUserName s_userName).2)
      ∧ cstr (Sys_GetCurrentUser GetUserName s_userName) ≠ [] := by
  have hp : cstr "player".toList ≠ [] := by decide
  have key : cstr (Sys_GetCurrentUser GetUserName s_userName)
        = (if (GetUserName s_userName).1 = false ∨ cstr (GetUserName s_userName).2 = []
            then "player".toList else cstr (GetUserName s_userName).2) := by
    unfold Sys_GetCurrentUser
    generalize GetUserName s_userName = r
    obtain ⟨ok, buf⟩ := r
    cases ok
    · have h1 : ¬ (strcpy buf "player".toList).headD NUL = NUL := by
        rw [headD_eq_NUL_iff, cstr_strcpy]; exact hp
      simp only [if_true, true_or, if_neg h1, cstr_strcpy, cstr_player]
    · by_cases he : cstr buf = []
      · have h1 : buf.headD NUL = NUL := (headD_eq_NUL_iff buf).2 he
        simp only [Bool.true_eq_false, if_false, false_or, if_pos h1, if_pos he,
          cstr_strcpy, cstr_player]
      · have h1 : ¬ buf.headD NUL = NUL := fun h => he ((headD_eq_NUL_iff buf).1 h)
        simp only [Bool.true_eq_false, if_false, false_or, if_neg h1, if_neg he]
  refine ⟨key, ?_⟩
  rw [key]
  split_ifs with h
  · decide
  · exact fun he => h (Or.inr he)

end WinShared
